import Mathlib

/-!
Verification of the DWARF/GNU eh_frame encoded-pointer and LEB128 decoding core
of PLCrashReporter (Source/PLCrashAsyncDwarfPrivate.c).

The C functions are shallowly embedded as Lean functions.  Machine integers
(uint64_t / pl_vm_address_t / pl_vm_size_t) are modelled as Nat with explicit
reduction modulo 2^64 wherever the C arithmetic can wrap.  Output parameters
(`*result`, `*size`) are modelled by passing the initial contents of the
caller's cells in and returning their final contents, so that claims about
cells being left unwritten on failure are expressible.  The memory object and
byte-order table, which are external collaborators of this file, are modelled
at their interface boundary: a bounds-checked byte range and a table of swap
functions.
-/

namespace PLCrashDwarf

/-- 2^64, the modulus of the 64-bit machine integers used throughout the C. -/
def u64 : Nat := 2 ^ 64

/-- The subset of plcrash_error_t values used by this core
(PLCRASH_ESUCCESS, PLCRASH_ENOTFOUND, PLCRASH_ENOTSUP, PLCRASH_EINVAL). -/
inductive plcrash_error where
  | ESUCCESS
  | ENOTFOUND
  | ENOTSUP
  | EINVAL
  deriving DecidableEq, Repr

/-- The memory object: a bounds-checked read-only view of a byte range,
anchored at task-relative address `base` and covering `data.length` bytes. -/
structure plcrash_async_mobject where
  base : Nat
  data : List Nat

/-- Modelled from the spec: `remap(base_address, offset, length)` returns a
read-only view of exactly `length` bytes starting at `base_address + offset`
iff that entire range lies within the mapped region, and reports unavailable
otherwise, never partially succeeding.  (plcrash_async_mobject_remap_address
is declared in the headers but its definition is not under src.) -/
def plcrash_async_mobject_remap_address (mobj : plcrash_async_mobject)
    (address offset len : Nat) : Option (List Nat) :=
  if mobj.base ≤ address + offset ∧
     address + offset + len ≤ mobj.base + mobj.data.length then
    some ((mobj.data.drop (address + offset - mobj.base)).take len)
  else
    none

/-- The byte-order table: swap functions applied to 2/4/8-byte loads
(identity functions when the target matches the reader's endianness). -/
structure plcrash_async_byteorder where
  swap16 : Nat → Nat
  swap32 : Nat → Nat
  swap64 : Nat → Nat

/-- A byte-order table whose swap functions are the identity, as used when the
mapped data is already in the reader's (little-endian) byte order. -/
def byteorder_le : plcrash_async_byteorder :=
  ⟨fun n => n, fun n => n, fun n => n⟩

/-- Assemble a remapped byte list into an unsigned integer the way the C
union read does on the (little-endian) host: byte 0 is least significant.
Each cell is a uint8_t, hence the reduction modulo 256. -/
def hostLoad : List Nat → Nat
  | [] => 0
  | b :: bs => b % 256 + 256 * hostLoad bs

/-- A single-byte bounds-checked fetch: the C idiom
`p = plcrash_async_mobject_remap_address(mobj, location, offset, 1); ... *p`. -/
def pl_fetch_byte (mobj : plcrash_async_mobject) (location offset : Nat) :
    Option Nat :=
  (plcrash_async_mobject_remap_address mobj location offset 1).map
    (fun bs => bs.headD 0)

/-- Result of the ULEB128 decoding loop: the error, the final contents of the
`*result` cell, and the byte offset reached (the loop variable `offset`). -/
structure LebLoopResult where
  err : plcrash_error
  result : Nat
  offset : Nat
  deriving DecidableEq, Repr

/-- Result of the SLEB128 decoding loop.  In addition to the fields of the
unsigned loop it records the last byte fetched (the C reads `*p` after the
loop) and the final shift, both needed for sign extension. -/
structure SlebLoopResult where
  err : plcrash_error
  result : Nat
  offset : Nat
  lastByte : Nat
  shift : Nat
  deriving DecidableEq, Repr

/-- The loop of plcrash_async_dwarf_read_uleb128: fetch one byte at
`location + offset`; OR its low 7 bits, shifted by `shift`, into the
accumulator; increment the offset; stop on a clear continuation bit; fail
with ENOTSUP once the shift reaches 64 bits; fail with EINVAL when the fetch
reports the range unavailable. -/
def uleb_loop (mobj : plcrash_async_mobject) (location result shift offset : Nat) :
    LebLoopResult :=
  match pl_fetch_byte mobj location offset with
  | none => ⟨.EINVAL, result, offset⟩
  | some byte =>
    let result' := (result ||| ((byte &&& 0x7f) <<< shift)) % u64
    if byte &&& 0x80 = 0 then ⟨.ESUCCESS, result', offset + 1⟩
    else if 64 ≤ shift + 7 then ⟨.ENOTSUP, result', offset + 1⟩
    else uleb_loop mobj location result' (shift + 7) (offset + 1)
termination_by 64 - shift
decreasing_by omega

/-- The loop of plcrash_async_dwarf_read_sleb128; identical accumulation to
`uleb_loop`, additionally reporting the last byte and the final shift.  On the
EINVAL path the C pointer `p` is NULL, so `lastByte` is a placeholder 0 that
no caller reads. -/
def sleb_loop (mobj : plcrash_async_mobject) (location result shift offset : Nat) :
    SlebLoopResult :=
  match pl_fetch_byte mobj location offset with
  | none => ⟨.EINVAL, result, offset, 0, shift⟩
  | some byte =>
    let result' := (result ||| ((byte &&& 0x7f) <<< shift)) % u64
    if byte &&& 0x80 = 0 then ⟨.ESUCCESS, result', offset + 1, byte, shift + 7⟩
    else if 64 ≤ shift + 7 then ⟨.ENOTSUP, result', offset + 1, byte, shift + 7⟩
    else sleb_loop mobj location result' (shift + 7) (offset + 1)
termination_by 64 - shift
decreasing_by omega

/-- plcrash_async_dwarf_read_uleb128.  `size0` is the initial contents of the
caller's `*size` cell; the cell is written (with the loop offset, which counts
the terminating byte) only on the success path.  The `*result` cell is zeroed
on entry, so its initial contents are irrelevant and not a parameter.
Returns (error, final `*result`, final `*size`). -/
def plcrash_async_dwarf_read_uleb128 (mobj : plcrash_async_mobject)
    (location size0 : Nat) : plcrash_error × Nat × Nat :=
  let o := uleb_loop mobj location 0 0 0
  if o.err = .ESUCCESS then (.ESUCCESS, o.result, o.offset)
  else (o.err, o.result, size0)

/-- plcrash_async_dwarf_read_sleb128.  Same accumulation as the unsigned
decoder; on the success path, if the final shift is below 64 and bit 0x40 of
the terminating byte is set, the accumulator is sign-extended by OR-ing in
the 64-bit two's complement pattern of -(1 << shift). -/
def plcrash_async_dwarf_read_sleb128 (mobj : plcrash_async_mobject)
    (location size0 : Nat) : plcrash_error × Nat × Nat :=
  let o := sleb_loop mobj location 0 0 0
  if o.err = .ESUCCESS then
    let r :=
      if o.shift < 64 ∧ o.lastByte &&& 0x40 ≠ 0 then
        o.result ||| (u64 - (1 <<< o.shift))
      else o.result
    (.ESUCCESS, r, o.offset)
  else (o.err, o.result, size0)

/-- Interpret a 64-bit cell as the int64_t it holds (two's complement). -/
def toInt64 (n : Nat) : Int :=
  if n % u64 < 2 ^ 63 then (n % u64 : Int) else (n % u64 : Int) - (u64 : Int)

/-! ### Structurally recursive twins of the LEB128 loops

`uleb_loop` and `sleb_loop` terminate because the shift grows by 7 towards the
64-bit limit; the twins below make that bound an explicit fuel argument so
that concrete runs reduce inside the kernel.  They are proved equal to the
loops above whenever the fuel covers the remaining shift budget, which fuel
10 always does. -/

/-- Fuel-indexed twin of `uleb_loop`; the fuel-exhausted branch is
unreachable when `64 ≤ shift + 7 * fuel`. -/
def uleb_fuel (mobj : plcrash_async_mobject) (location : Nat) :
    Nat → Nat → Nat → Nat → LebLoopResult
  | fuel, result, shift, offset =>
    match pl_fetch_byte mobj location offset with
    | none => ⟨.EINVAL, result, offset⟩
    | some byte =>
      let result' := (result ||| ((byte &&& 0x7f) <<< shift)) % u64
      if byte &&& 0x80 = 0 then ⟨.ESUCCESS, result', offset + 1⟩
      else if 64 ≤ shift + 7 then ⟨.ENOTSUP, result', offset + 1⟩
      else
        match fuel with
        | 0 => ⟨.EINVAL, result', offset + 1⟩
        | fuel' + 1 => uleb_fuel mobj location fuel' result' (shift + 7) (offset + 1)

/-- Fuel-indexed twin of `sleb_loop`. -/
def sleb_fuel (mobj : plcrash_async_mobject) (location : Nat) :
    Nat → Nat → Nat → Nat → SlebLoopResult
  | fuel, result, shift, offset =>
    match pl_fetch_byte mobj location offset with
    | none => ⟨.EINVAL, result, offset, 0, shift⟩
    | some byte =>
      let result' := (result ||| ((byte &&& 0x7f) <<< shift)) % u64
      if byte &&& 0x80 = 0 then ⟨.ESUCCESS, result', offset + 1, byte, shift + 7⟩
      else if 64 ≤ shift + 7 then ⟨.ENOTSUP, result', offset + 1, byte, shift + 7⟩
      else
        match fuel with
        | 0 => ⟨.EINVAL, result', offset + 1, byte, shift + 7⟩
        | fuel' + 1 => sleb_fuel mobj location fuel' result' (shift + 7) (offset + 1)

/-- Kernel-computable form of `plcrash_async_dwarf_read_uleb128`. -/
def uleb128_exec (mobj : plcrash_async_mobject) (location size0 : Nat) :
    plcrash_error × Nat × Nat :=
  let o := uleb_fuel mobj location 10 0 0 0
  if o.err = .ESUCCESS then (.ESUCCESS, o.result, o.offset)
  else (o.err, o.result, size0)

/-- Kernel-computable form of `plcrash_async_dwarf_read_sleb128`. -/
def sleb128_exec (mobj : plcrash_async_mobject) (location size0 : Nat) :
    plcrash_error × Nat × Nat :=
  let o := sleb_fuel mobj location 10 0 0 0
  if o.err = .ESUCCESS then
    let r :=
      if o.shift < 64 ∧ o.lastByte &&& 0x40 ≠ 0 then
        o.result ||| (u64 - (1 <<< o.shift))
      else o.result
    (.ESUCCESS, r, o.offset)
  else (o.err, o.result, size0)

/-! ### GNU eh_frame encoded-pointer decoding -/

/-- Modelled from the spec: the DW_EH_PE_t encoding constants of the Linux
Standard Base DWARF extensions referenced by the decoder; the defining header
(PLCrashAsyncDwarfPrivate.h) is not under src.  Bits 0-3 select the value
representation, bits 4-6 the base-address class, bit 7 indirection, and 0xff
is the reserved `omit` sentinel. -/
def DW_EH_PE_absptr : Nat := 0x00

/-- Modelled from the spec: ULEB128 value representation. -/
def DW_EH_PE_uleb128 : Nat := 0x01

/-- Modelled from the spec: 2-byte unsigned value representation. -/
def DW_EH_PE_udata2 : Nat := 0x02

/-- Modelled from the spec: 4-byte unsigned value representation. -/
def DW_EH_PE_udata4 : Nat := 0x03

/-- Modelled from the spec: 8-byte unsigned value representation. -/
def DW_EH_PE_udata8 : Nat := 0x04

/-- Modelled from the spec: SLEB128 value representation. -/
def DW_EH_PE_sleb128 : Nat := 0x09

/-- Modelled from the spec: 2-byte signed value representation. -/
def DW_EH_PE_sdata2 : Nat := 0x0a

/-- Modelled from the spec: 4-byte signed value representation. -/
def DW_EH_PE_sdata4 : Nat := 0x0b

/-- Modelled from the spec: 8-byte signed value representation. -/
def DW_EH_PE_sdata8 : Nat := 0x0c

/-- Modelled from the spec: PC-relative base-address class. -/
def DW_EH_PE_pcrel : Nat := 0x10

/-- Modelled from the spec: text-relative base-address class. -/
def DW_EH_PE_textrel : Nat := 0x20

/-- Modelled from the spec: data-relative base-address class. -/
def DW_EH_PE_datarel : Nat := 0x30

/-- Modelled from the spec: function-relative base-address class. -/
def DW_EH_PE_funcrel : Nat := 0x40

/-- Modelled from the spec: aligned base-address class. -/
def DW_EH_PE_aligned : Nat := 0x50

/-- Modelled from the spec: the indirection flag bit. -/
def DW_EH_PE_indirect : Nat := 0x80

/-- Modelled from the spec: the `omit` sentinel (no value present). -/
def DW_EH_PE_omit : Nat := 0xff

/-- Modelled from the spec: the reserved sentinel address meaning
"no base configured" (PL_VM_ADDRESS_INVALID; the defining header is not
under src).  On the modelled 64-bit target it is the maximal uint64. -/
def PL_VM_ADDRESS_INVALID : Nat := u64 - 1

/-- Modelled from the spec: the platform's maximal representable address
(64-bit target, so the uleb128 range check can never fire). -/
def PL_VM_ADDRESS_MAX : Nat := u64 - 1

/-- Modelled from the spec: maximal pl_vm_off_t (int64_t on the modelled
target). -/
def PL_VM_OFF_MAX : Int := 2 ^ 63 - 1

/-- Modelled from the spec: minimal pl_vm_off_t. -/
def PL_VM_OFF_MIN : Int := -(2 ^ 63)

/-- The GNU eh_frame pointer state: the target address size and the six base
addresses (each possibly the PL_VM_ADDRESS_INVALID sentinel). -/
structure plcrash_async_dwarf_gnueh_ptr_state where
  address_size : Nat
  frame_section_base : Nat
  frame_section_vm_addr : Nat
  pc_rel_base : Nat
  text_base : Nat
  data_base : Nat
  func_base : Nat
  deriving DecidableEq, Repr

/-- plcrash_async_dwarf_gnueh_ptr_state_init: stores the supplied values
(the C additionally asserts address_size ∈ {1,2,4,8}). -/
def plcrash_async_dwarf_gnueh_ptr_state_init
    (address_size frame_section_base frame_section_vm_addr pc_rel_base
     text_base data_base func_base : Nat) :
    plcrash_async_dwarf_gnueh_ptr_state :=
  ⟨address_size, frame_section_base, frame_section_vm_addr, pc_rel_base,
   text_base, data_base, func_base⟩

/-- pl_dwarf_read_umax64: remap `data_size` bytes at `base_addr + offset`,
reinterpret them as a host-order (little-endian) integer of that width via
the union, and apply the byte-order swap for the width; widths other than
1/2/4/8 fail. -/
def pl_dwarf_read_umax64 (mobj : plcrash_async_mobject)
    (byteorder : plcrash_async_byteorder) (base_addr offset data_size : Nat) :
    Option Nat :=
  match plcrash_async_mobject_remap_address mobj base_addr offset data_size with
  | none => none
  | some bs =>
    if data_size = 1 then some (hostLoad bs)
    else if data_size = 2 then some (byteorder.swap16 (hostLoad bs) % 2 ^ 16)
    else if data_size = 4 then some (byteorder.swap32 (hostLoad bs) % 2 ^ 32)
    else if data_size = 8 then some (byteorder.swap64 (hostLoad bs) % u64)
    else none

/-- Modelled from the spec: plcrash_async_mobject_read_uint16 (defined
outside src) performs one bounds-checked remap of 2 bytes and applies the
byte-order swap; unavailability is the invalid-data failure. -/
def plcrash_async_mobject_read_uint16 (mobj : plcrash_async_mobject)
    (byteorder : plcrash_async_byteorder) (address offset : Nat) :
    Except plcrash_error Nat :=
  match plcrash_async_mobject_remap_address mobj address offset 2 with
  | none => .error .EINVAL
  | some bs => .ok (byteorder.swap16 (hostLoad bs) % 2 ^ 16)

/-- Modelled from the spec: plcrash_async_mobject_read_uint32, as above with
4 bytes. -/
def plcrash_async_mobject_read_uint32 (mobj : plcrash_async_mobject)
    (byteorder : plcrash_async_byteorder) (address offset : Nat) :
    Except plcrash_error Nat :=
  match plcrash_async_mobject_remap_address mobj address offset 4 with
  | none => .error .EINVAL
  | some bs => .ok (byteorder.swap32 (hostLoad bs) % 2 ^ 32)

/-- Modelled from the spec: plcrash_async_mobject_read_uint64, as above with
8 bytes. -/
def plcrash_async_mobject_read_uint64 (mobj : plcrash_async_mobject)
    (byteorder : plcrash_async_byteorder) (address offset : Nat) :
    Except plcrash_error Nat :=
  match plcrash_async_mobject_remap_address mobj address offset 8 with
  | none => .error .EINVAL
  | some bs => .ok (byteorder.swap64 (hostLoad bs) % u64)

/-- The uint64 bit pattern of sign-extending a 16-bit value to 64 bits,
as the C cast (uint16_t*)→int16_t followed by widening performs. -/
def sext16 (n : Nat) : Nat :=
  if n % 2 ^ 16 < 2 ^ 15 then n % 2 ^ 16 else n % 2 ^ 16 + (u64 - 2 ^ 16)

/-- The uint64 bit pattern of sign-extending a 32-bit value to 64 bits. -/
def sext32 (n : Nat) : Nat :=
  if n % 2 ^ 32 < 2 ^ 31 then n % 2 ^ 32 else n % 2 ^ 32 + (u64 - 2 ^ 32)

/-- The base-address selection switch of plcrash_async_dwarf_read_gnueh_ptr
(`switch (encoding & 0x70)`).  On success returns the base address, the
(possibly alignment-adjusted) location, and the value stored into `*size`
before the value read (0, or the aligned padding).  All arithmetic is the
C uint64 arithmetic, including the wrapped subtractions of the aligned case
and its `& ~address_size` mask (the ones' complement of address_size, not of
address_size - 1). -/
def gnueh_ptr_base (encoding : Nat)
    (state : plcrash_async_dwarf_gnueh_ptr_state) (location : Nat) :
    Except plcrash_error (Nat × Nat × Nat) :=
  if encoding &&& 0x70 = DW_EH_PE_pcrel then
    if state.pc_rel_base = PL_VM_ADDRESS_INVALID then .error .ENOTSUP
    else .ok (state.pc_rel_base, location, 0)
  else if encoding &&& 0x70 = DW_EH_PE_absptr then
    .ok (0, location, 0)
  else if encoding &&& 0x70 = DW_EH_PE_textrel then
    if state.text_base = PL_VM_ADDRESS_INVALID then .error .ENOTSUP
    else .ok (state.text_base, location, 0)
  else if encoding &&& 0x70 = DW_EH_PE_datarel then
    if state.data_base = PL_VM_ADDRESS_INVALID then .error .ENOTSUP
    else .ok (state.data_base, location, 0)
  else if encoding &&& 0x70 = DW_EH_PE_funcrel then
    if state.func_base = PL_VM_ADDRESS_INVALID then .error .ENOTSUP
    else .ok (state.func_base, location, 0)
  else if encoding &&& 0x70 = DW_EH_PE_aligned then
    if state.frame_section_vm_addr = PL_VM_ADDRESS_INVALID then .error .ENOTSUP
    else if state.frame_section_base = PL_VM_ADDRESS_INVALID then .error .ENOTSUP
    else
      let offset := (location + u64 - state.frame_section_base % u64) % u64
      let vm_addr := (state.frame_section_vm_addr + offset) % u64
      let vm_aligned :=
        ((vm_addr + (state.address_size + (u64 - 1)) % u64) % u64) &&&
          ((state.address_size % u64) ^^^ (u64 - 1))
      let pad := (vm_aligned + (u64 - vm_addr)) % u64
      .ok (0, (location + pad) % u64, pad)
  else .error .ENOTSUP

/-- The value-representation switch of plcrash_async_dwarf_read_gnueh_ptr
(`switch (encoding & 0x0F)`).  On success returns the value stored into
`*result` and the amount added to `*size`.  In the uleb128 and sleb128 cases
the C assigns the sub-decoder's return value to `err` but never tests it, so
a failed sub-decode falls through: the partial accumulator is used as the
value and the uninitialized local size variable (initial contents `junk`) is
used as the size (this mirrors the source).  The range checks against
PL_VM_ADDRESS_MAX / PL_VM_OFF_MAX / PL_VM_OFF_MIN are kept literally even
though they cannot fire on the 64-bit target. -/
def gnueh_ptr_value (mobj : plcrash_async_mobject)
    (byteorder : plcrash_async_byteorder) (location encoding base : Nat)
    (state : plcrash_async_dwarf_gnueh_ptr_state) (junk : Nat) :
    Except plcrash_error (Nat × Nat) :=
  if encoding &&& 0x0f = DW_EH_PE_absptr then
    match pl_dwarf_read_umax64 mobj byteorder location 0 state.address_size with
    | none => .error .EINVAL
    | some v => .ok ((v + base) % u64, state.address_size)
  else if encoding &&& 0x0f = DW_EH_PE_uleb128 then
    if PL_VM_ADDRESS_MAX < (plcrash_async_dwarf_read_uleb128 mobj location junk).2.1 then
      .error .ENOTSUP
    else
      .ok (((plcrash_async_dwarf_read_uleb128 mobj location junk).2.1 + base) % u64,
        (plcrash_async_dwarf_read_uleb128 mobj location junk).2.2)
  else if encoding &&& 0x0f = DW_EH_PE_udata2 then
    match plcrash_async_mobject_read_uint16 mobj byteorder location 0 with
    | .error e => .error e
    | .ok v => .ok ((v + base) % u64, 2)
  else if encoding &&& 0x0f = DW_EH_PE_udata4 then
    match plcrash_async_mobject_read_uint32 mobj byteorder location 0 with
    | .error e => .error e
    | .ok v => .ok ((v + base) % u64, 4)
  else if encoding &&& 0x0f = DW_EH_PE_udata8 then
    match plcrash_async_mobject_read_uint64 mobj byteorder location 0 with
    | .error e => .error e
    | .ok v => .ok ((v + base) % u64, 8)
  else if encoding &&& 0x0f = DW_EH_PE_sleb128 then
    if PL_VM_OFF_MAX < toInt64 (plcrash_async_dwarf_read_sleb128 mobj location junk).2.1 ∨
       toInt64 (plcrash_async_dwarf_read_sleb128 mobj location junk).2.1 < PL_VM_OFF_MIN then
      .error .ENOTSUP
    else
      .ok (((plcrash_async_dwarf_read_sleb128 mobj location junk).2.1 + base) % u64,
        (plcrash_async_dwarf_read_sleb128 mobj location junk).2.2)
  else if encoding &&& 0x0f = DW_EH_PE_sdata2 then
    match plcrash_async_mobject_read_uint16 mobj byteorder location 0 with
    | .error e => .error e
    | .ok v => .ok ((sext16 v + base) % u64, 2)
  else if encoding &&& 0x0f = DW_EH_PE_sdata4 then
    match plcrash_async_mobject_read_uint32 mobj byteorder location 0 with
    | .error e => .error e
    | .ok v => .ok ((sext32 v + base) % u64, 4)
  else if encoding &&& 0x0f = DW_EH_PE_sdata8 then
    match plcrash_async_mobject_read_uint64 mobj byteorder location 0 with
    | .error e => .error e
    | .ok v => .ok ((v + base) % u64, 8)
  else .error .ENOTSUP

/-- plcrash_async_dwarf_read_gnueh_ptr.  `result0` and `size0` are the
initial contents of the caller's `*result` and `*size` cells; `junk` models
the indeterminate initial contents of the local size variables that the C
leaves uninitialized (uleb_size / sleb_size / target_size).
Returns (error, final `*result`, final `*size`).

Control flow mirrors the C: the omit early-out (cells untouched), `*size = 0`,
the base switch (which may overwrite `*size` with alignment padding), the
value switch (writing `*result` and adding to `*size` on success), and one
level of indirection in which the function calls itself on the just-computed
value with a plain DW_EH_PE_absptr encoding, discarding the inner call's size
cell. -/
def plcrash_async_dwarf_read_gnueh_ptr (mobj : plcrash_async_mobject)
    (byteorder : plcrash_async_byteorder) (location encoding : Nat)
    (state : plcrash_async_dwarf_gnueh_ptr_state) (result0 size0 junk : Nat) :
    plcrash_error × Nat × Nat :=
  if encoding = DW_EH_PE_omit then (.ENOTFOUND, result0, size0)
  else
    match gnueh_ptr_base encoding state location with
    | .error e => (e, result0, 0)
    | .ok (base, location', size1) =>
      match gnueh_ptr_value mobj byteorder location' encoding base state junk with
      | .error e => (e, result0, size1)
      | .ok (v, add) =>
        if encoding &&& DW_EH_PE_indirect ≠ 0 then
          let r := plcrash_async_dwarf_read_gnueh_ptr mobj byteorder v
            DW_EH_PE_absptr state v junk junk
          (r.1, r.2.1, (size1 + add) % u64)
        else (.ESUCCESS, v, (size1 + add) % u64)
termination_by encoding &&& DW_EH_PE_indirect
decreasing_by
  rename_i h
  simp only [DW_EH_PE_absptr, DW_EH_PE_indirect] at *
  have h0 : (0 : Nat) &&& 0x80 = 0 := by decide
  rw [h0]
  exact Nat.pos_of_ne_zero h

/-! ### Kernel-computable twin of the pointer decoder -/

/-- `gnueh_ptr_value` with the LEB128 readers replaced by their
kernel-computable forms. -/
def gnueh_ptr_value_exec (mobj : plcrash_async_mobject)
    (byteorder : plcrash_async_byteorder) (location encoding base : Nat)
    (state : plcrash_async_dwarf_gnueh_ptr_state) (junk : Nat) :
    Except plcrash_error (Nat × Nat) :=
  if encoding &&& 0x0f = DW_EH_PE_absptr then
    match pl_dwarf_read_umax64 mobj byteorder location 0 state.address_size with
    | none => .error .EINVAL
    | some v => .ok ((v + base) % u64, state.address_size)
  else if encoding &&& 0x0f = DW_EH_PE_uleb128 then
    if PL_VM_ADDRESS_MAX < (uleb128_exec mobj location junk).2.1 then
      .error .ENOTSUP
    else
      .ok (((uleb128_exec mobj location junk).2.1 + base) % u64,
        (uleb128_exec mobj location junk).2.2)
  else if encoding &&& 0x0f = DW_EH_PE_udata2 then
    match plcrash_async_mobject_read_uint16 mobj byteorder location 0 with
    | .error e => .error e
    | .ok v => .ok ((v + base) % u64, 2)
  else if encoding &&& 0x0f = DW_EH_PE_udata4 then
    match plcrash_async_mobject_read_uint32 mobj byteorder location 0 with
    | .error e => .error e
    | .ok v => .ok ((v + base) % u64, 4)
  else if encoding &&& 0x0f = DW_EH_PE_udata8 then
    match plcrash_async_mobject_read_uint64 mobj byteorder location 0 with
    | .error e => .error e
    | .ok v => .ok ((v + base) % u64, 8)
  else if encoding &&& 0x0f = DW_EH_PE_sleb128 then
    if PL_VM_OFF_MAX < toInt64 (sleb128_exec mobj location junk).2.1 ∨
       toInt64 (sleb128_exec mobj location junk).2.1 < PL_VM_OFF_MIN then
      .error .ENOTSUP
    else
      .ok (((sleb128_exec mobj location junk).2.1 + base) % u64,
        (sleb128_exec mobj location junk).2.2)
  else if encoding &&& 0x0f = DW_EH_PE_sdata2 then
    match plcrash_async_mobject_read_uint16 mobj byteorder location 0 with
    | .error e => .error e
    | .ok v => .ok ((sext16 v + base) % u64, 2)
  else if encoding &&& 0x0f = DW_EH_PE_sdata4 then
    match plcrash_async_mobject_read_uint32 mobj byteorder location 0 with
    | .error e => .error e
    | .ok v => .ok ((sext32 v + base) % u64, 4)
  else if encoding &&& 0x0f = DW_EH_PE_sdata8 then
    match plcrash_async_mobject_read_uint64 mobj byteorder location 0 with
    | .error e => .error e
    | .ok v => .ok ((v + base) % u64, 8)
  else .error .ENOTSUP
/-- The pointer decode without the indirection step (steps 1-3 of the C
function), in kernel-computable form; this is exactly what the decoder's
recursive DW_EH_PE_absptr self-call computes, since absptr has no
indirection bit. -/
def gnueh_noind_exec (mobj : plcrash_async_mobject)
    (byteorder : plcrash_async_byteorder) (location encoding : Nat)
    (state : plcrash_async_dwarf_gnueh_ptr_state) (result0 size0 junk : Nat) :
    plcrash_error × Nat × Nat :=
  if encoding = DW_EH_PE_omit then (.ENOTFOUND, result0, size0)
  else
    match gnueh_ptr_base encoding state location with
    | .error e => (e, result0, 0)
    | .ok (base, location', size1) =>
      match gnueh_ptr_value_exec mobj byteorder location' encoding base state junk with
      | .error e => (e, result0, size1)
      | .ok (v, add) => (.ESUCCESS, v, (size1 + add) % u64)

/-- Kernel-computable form of `plcrash_async_dwarf_read_gnueh_ptr`. -/
def gnueh_ptr_exec (mobj : plcrash_async_mobject)
    (byteorder : plcrash_async_byteorder) (location encoding : Nat)
    (state : plcrash_async_dwarf_gnueh_ptr_state) (result0 size0 junk : Nat) :
    plcrash_error × Nat × Nat :=
  if encoding = DW_EH_PE_omit then (.ENOTFOUND, result0, size0)
  else
    match gnueh_ptr_base encoding state location with
    | .error e => (e, result0, 0)
    | .ok (base, location', size1) =>
      match gnueh_ptr_value_exec mobj byteorder location' encoding base state junk with
      | .error e => (e, result0, size1)
      | .ok (v, add) =>
        if encoding &&& DW_EH_PE_indirect ≠ 0 then
          let r := gnueh_noind_exec mobj byteorder v DW_EH_PE_absptr state v junk junk
          (r.1, r.2.1, (size1 + add) % u64)
        else (.ESUCCESS, v, (size1 + add) % u64)

/-- The accumulator folded over a byte list: starting from `result` at bit
position `shift`, OR in each byte's low 7 bits and advance the shift by 7. -/
def uleb_acc : Nat → Nat → List Nat → Nat
  | result, _, [] => result
  | result, shift, b :: bs =>
    uleb_acc ((result ||| ((b &&& 0x7f) <<< shift)) % u64) (shift + 7) bs

/-- The `n` bytes fetched starting at loop offset `o` (a missing byte is
reported as 0; in the characterizations below it is only used at offsets
where the fetch is known to succeed). -/
def fetched_bytes (mobj : plcrash_async_mobject) (location : Nat) :
    Nat → Nat → List Nat
  | _, 0 => []
  | o, n + 1 =>
    (pl_fetch_byte mobj location o).getD 0 ::
      fetched_bytes mobj location (o + 1) n

theorem uleb_loop_eq_fuel (mobj : plcrash_async_mobject) (location : Nat) :
    ∀ fuel result shift offset, 64 ≤ shift + 7 * fuel →
      uleb_loop mobj location result shift offset =
        uleb_fuel mobj location fuel result shift offset := by
  intro fuel
  induction fuel with
  | zero =>
    intro result shift offset h
    rw [uleb_loop, uleb_fuel]
    cases pl_fetch_byte mobj location offset with
    | none => rfl
    | some byte =>
      simp only
      split
      · rfl
      · split
        · rfl
        · omega
  | succ fuel ih =>
    intro result shift offset h
    rw [uleb_loop, uleb_fuel]
    cases pl_fetch_byte mobj location offset with
    | none => rfl
    | some byte =>
      simp only
      split
      · rfl
      · split
        · rfl
        · exact ih _ _ _ (by omega)

theorem sleb_loop_eq_fuel (mobj : plcrash_async_mobject) (location : Nat) :
    ∀ fuel result shift offset, 64 ≤ shift + 7 * fuel →
      sleb_loop mobj location result shift offset =
        sleb_fuel mobj location fuel result shift offset := by
  intro fuel
  induction fuel with
  | zero =>
    intro result shift offset h
    rw [sleb_loop, sleb_fuel]
    cases pl_fetch_byte mobj location offset with
    | none => rfl
    | some byte =>
      simp only
      split
      · rfl
      · split
        · rfl
        · omega
  | succ fuel ih =>
    intro result shift offset h
    rw [sleb_loop, sleb_fuel]
    cases pl_fetch_byte mobj location offset with
    | none => rfl
    | some byte =>
      simp only
      split
      · rfl
      · split
        · rfl
        · exact ih _ _ _ (by omega)

theorem read_uleb128_eq_exec (mobj : plcrash_async_mobject) (location size0 : Nat) :
    plcrash_async_dwarf_read_uleb128 mobj location size0 =
      uleb128_exec mobj location size0 := by
  unfold plcrash_async_dwarf_read_uleb128 uleb128_exec
  rw [uleb_loop_eq_fuel mobj location 10 0 0 0 (by omega)]

theorem read_sleb128_eq_exec (mobj : plcrash_async_mobject) (location size0 : Nat) :
    plcrash_async_dwarf_read_sleb128 mobj location size0 =
      sleb128_exec mobj location size0 := by
  unfold plcrash_async_dwarf_read_sleb128 sleb128_exec
  rw [sleb_loop_eq_fuel mobj location 10 0 0 0 (by omega)]

theorem gnueh_ptr_value_eq_exec (mobj : plcrash_async_mobject)
    (byteorder : plcrash_async_byteorder) (location encoding base : Nat)
    (state : plcrash_async_dwarf_gnueh_ptr_state) (junk : Nat) :
    gnueh_ptr_value mobj byteorder location encoding base state junk =
      gnueh_ptr_value_exec mobj byteorder location encoding base state junk := by
  unfold gnueh_ptr_value gnueh_ptr_value_exec
  rw [read_uleb128_eq_exec, read_sleb128_eq_exec]

theorem read_gnueh_ptr_absptr_eq_noind (mobj : plcrash_async_mobject)
    (byteorder : plcrash_async_byteorder) (location : Nat)
    (state : plcrash_async_dwarf_gnueh_ptr_state) (result0 size0 junk : Nat) :
    plcrash_async_dwarf_read_gnueh_ptr mobj byteorder location DW_EH_PE_absptr
        state result0 size0 junk =
      gnueh_noind_exec mobj byteorder location DW_EH_PE_absptr
        state result0 size0 junk := by
  rw [plcrash_async_dwarf_read_gnueh_ptr]
  unfold gnueh_noind_exec
  have hind : DW_EH_PE_absptr &&& DW_EH_PE_indirect = 0 := by decide
  simp only [gnueh_ptr_value_eq_exec, hind, ne_eq, not_true_eq_false, if_false,
    not_false_eq_true]

theorem read_gnueh_ptr_eq_exec (mobj : plcrash_async_mobject)
    (byteorder : plcrash_async_byteorder) (location encoding : Nat)
    (state : plcrash_async_dwarf_gnueh_ptr_state) (result0 size0 junk : Nat) :
    plcrash_async_dwarf_read_gnueh_ptr mobj byteorder location encoding
        state result0 size0 junk =
      gnueh_ptr_exec mobj byteorder location encoding state result0 size0 junk := by
  rw [plcrash_async_dwarf_read_gnueh_ptr]
  unfold gnueh_ptr_exec
  simp only [gnueh_ptr_value_eq_exec, read_gnueh_ptr_absptr_eq_noind]

/-! ### Error-classification helpers -/

theorem read_uint16_error_eq_einval (mobj : plcrash_async_mobject)
    (byteorder : plcrash_async_byteorder) (address offset : Nat)
    (x : plcrash_error)
    (h : plcrash_async_mobject_read_uint16 mobj byteorder address offset = .error x) :
    x = .EINVAL := by
  unfold plcrash_async_mobject_read_uint16 at h
  revert h
  cases plcrash_async_mobject_remap_address mobj address offset 2 with
  | none => intro h; injection h with h; exact h.symm
  | some bs => intro h; exact Except.noConfusion h

theorem read_uint32_error_eq_einval (mobj : plcrash_async_mobject)
    (byteorder : plcrash_async_byteorder) (address offset : Nat)
    (x : plcrash_error)
    (h : plcrash_async_mobject_read_uint32 mobj byteorder address offset = .error x) :
    x = .EINVAL := by
  unfold plcrash_async_mobject_read_uint32 at h
  revert h
  cases plcrash_async_mobject_remap_address mobj address offset 4 with
  | none => intro h; injection h with h; exact h.symm
  | some bs => intro h; exact Except.noConfusion h

theorem read_uint64_error_eq_einval (mobj : plcrash_async_mobject)
    (byteorder : plcrash_async_byteorder) (address offset : Nat)
    (x : plcrash_error)
    (h : plcrash_async_mobject_read_uint64 mobj byteorder address offset = .error x) :
    x = .EINVAL := by
  unfold plcrash_async_mobject_read_uint64 at h
  revert h
  cases plcrash_async_mobject_remap_address mobj address offset 8 with
  | none => intro h; injection h with h; exact h.symm
  | some bs => intro h; exact Except.noConfusion h

/-- The base-selection switch fails only with ENOTSUP. -/
theorem gnueh_ptr_base_error_eq_enotsup (encoding : Nat)
    (state : plcrash_async_dwarf_gnueh_ptr_state) (location : Nat)
    (x : plcrash_error)
    (h : gnueh_ptr_base encoding state location = .error x) :
    x = .ENOTSUP := by
  unfold gnueh_ptr_base at h
  split_ifs at h <;>
    first
      | (injection h with h; exact h.symm)
      | exact Except.noConfusion h

/-- The value-representation switch never fails with ESUCCESS. -/
theorem gnueh_ptr_value_error_ne_esuccess (mobj : plcrash_async_mobject)
    (byteorder : plcrash_async_byteorder) (location encoding base : Nat)
    (state : plcrash_async_dwarf_gnueh_ptr_state) (junk : Nat)
    (x : plcrash_error)
    (h : gnueh_ptr_value mobj byteorder location encoding base state junk = .error x) :
    x ≠ .ESUCCESS := by
  unfold gnueh_ptr_value at h
  split_ifs at h <;> (try split at h) <;>
    first
      | exact Except.noConfusion h
      | (injection h with h; subst h; decide)
      | (injection h with h; subst h;
         have hx : _ = plcrash_error.EINVAL :=
           read_uint16_error_eq_einval _ _ _ _ _ (by assumption)
         rw [hx]; decide)
      | (injection h with h; subst h;
         have hx : _ = plcrash_error.EINVAL :=
           read_uint32_error_eq_einval _ _ _ _ _ (by assumption)
         rw [hx]; decide)
      | (injection h with h; subst h;
         have hx : _ = plcrash_error.EINVAL :=
           read_uint64_error_eq_einval _ _ _ _ _ (by assumption)
         rw [hx]; decide)

/-! ### Mask algebra for the encoding byte -/

theorem land_7f_70 (e : Nat) : (e &&& 0x7f) &&& 0x70 = e &&& 0x70 := by
  rw [Nat.land_assoc, (by decide : (0x7f : Nat) &&& 0x70 = 0x70)]

theorem land_7f_0f (e : Nat) : (e &&& 0x7f) &&& 0x0f = e &&& 0x0f := by
  rw [Nat.land_assoc, (by decide : (0x7f : Nat) &&& 0x0f = 0x0f)]

theorem land_7f_80 (e : Nat) : (e &&& 0x7f) &&& 0x80 = 0 := by
  rw [Nat.land_assoc, (by decide : (0x7f : Nat) &&& 0x80 = 0)]
  simp

theorem land_7f_ne_omit (e : Nat) : e &&& 0x7f ≠ DW_EH_PE_omit := by
  have h : e &&& 0x7f ≤ 0x7f := Nat.and_le_right
  unfold DW_EH_PE_omit
  omega

/-- Base selection depends on the encoding only through bits 4-6, so
stripping the indirection bit does not change it. -/
theorem gnueh_ptr_base_masked (e : Nat)
    (state : plcrash_async_dwarf_gnueh_ptr_state) (location : Nat) :
    gnueh_ptr_base (e &&& 0x7f) state location = gnueh_ptr_base e state location := by
  unfold gnueh_ptr_base
  rw [land_7f_70]

/-- Value-representation selection depends on the encoding only through
bits 0-3, so stripping the indirection bit does not change it. -/
theorem gnueh_ptr_value_masked (mobj : plcrash_async_mobject)
    (byteorder : plcrash_async_byteorder) (location e base : Nat)
    (state : plcrash_async_dwarf_gnueh_ptr_state) (junk : Nat) :
    gnueh_ptr_value mobj byteorder location (e &&& 0x7f) base state junk =
      gnueh_ptr_value mobj byteorder location e base state junk := by
  unfold gnueh_ptr_value
  rw [land_7f_0f]

/-- Encoding 0x7f (the omit sentinel with the indirection bit stripped) hits
the default case of the base switch. -/
theorem gnueh_ptr_base_0x7f (state : plcrash_async_dwarf_gnueh_ptr_state)
    (location : Nat) :
    gnueh_ptr_base 0x7f state location = .error .ENOTSUP := by
  unfold gnueh_ptr_base
  rw [(by decide : (0x7f : Nat) &&& 0x70 = 0x70)]
  norm_num [DW_EH_PE_pcrel, DW_EH_PE_absptr, DW_EH_PE_textrel, DW_EH_PE_datarel,
    DW_EH_PE_funcrel, DW_EH_PE_aligned]

theorem read_gnueh_ptr_0x7f (mobj : plcrash_async_mobject)
    (byteorder : plcrash_async_byteorder) (location : Nat)
    (state : plcrash_async_dwarf_gnueh_ptr_state) (result0 size0 junk : Nat) :
    plcrash_async_dwarf_read_gnueh_ptr mobj byteorder location 0x7f state
      result0 size0 junk = (.ENOTSUP, result0, 0) := by
  rw [plcrash_async_dwarf_read_gnueh_ptr]
  rw [if_neg (by unfold DW_EH_PE_omit; omega)]
  rw [gnueh_ptr_base_0x7f]

/-- Decomposition of an indirect decode: when the decode of the same
encoding with the indirection bit stripped succeeds with value `v` and size
`s`, the decode of the indirect encoding performs exactly one further plain
DW_EH_PE_absptr decode at `v` with the same state, returns that inner
decode's error and result, and reports the outer size `s` (the inner size
cell is discarded). -/
theorem gnueh_ptr_indirect_decomposition (e : Nat) (mobj : plcrash_async_mobject)
    (byteorder : plcrash_async_byteorder) (location : Nat)
    (state : plcrash_async_dwarf_gnueh_ptr_state) (result0 size0 junk v s : Nat)
    (h80 : e &&& DW_EH_PE_indirect ≠ 0)
    (hinner : plcrash_async_dwarf_read_gnueh_ptr mobj byteorder location
      (e &&& 0x7f) state result0 size0 junk = (.ESUCCESS, v, s)) :
    plcrash_async_dwarf_read_gnueh_ptr mobj byteorder location e state
        result0 size0 junk =
      ((plcrash_async_dwarf_read_gnueh_ptr mobj byteorder v DW_EH_PE_absptr
          state v junk junk).1,
       (plcrash_async_dwarf_read_gnueh_ptr mobj byteorder v DW_EH_PE_absptr
          state v junk junk).2.1,
       s) := by
  have hstrip : (e &&& 0x7f) &&& DW_EH_PE_indirect = 0 := by
    simp only [DW_EH_PE_indirect]
    exact land_7f_80 e
  by_cases he : e = DW_EH_PE_omit
  · exfalso
    rw [he, (by decide : DW_EH_PE_omit &&& (0x7f : Nat) = 0x7f),
      read_gnueh_ptr_0x7f] at hinner
    exact plcrash_error.noConfusion (congrArg Prod.fst hinner)
  · rw [plcrash_async_dwarf_read_gnueh_ptr, if_neg (land_7f_ne_omit e),
      gnueh_ptr_base_masked] at hinner
    rw [plcrash_async_dwarf_read_gnueh_ptr, if_neg he]
    rcases hb : gnueh_ptr_base e state location with er | ⟨base, location', size1⟩
    · rw [hb] at hinner
      exfalso
      have h1 : er = plcrash_error.ESUCCESS := congrArg Prod.fst hinner
      rw [gnueh_ptr_base_error_eq_enotsup e state location er hb] at h1
      exact plcrash_error.noConfusion h1
    · rw [hb] at hinner
      simp only [] at hinner ⊢
      simp only [gnueh_ptr_value_masked] at hinner
      rcases hv : gnueh_ptr_value mobj byteorder location' e base state junk with
        er | ⟨v', add⟩
      · rw [hv] at hinner
        simp only [] at hinner
        exact absurd (congrArg Prod.fst hinner)
          (gnueh_ptr_value_error_ne_esuccess mobj byteorder location' e base
            state junk er hv)
      · rw [hv] at hinner
        simp only [] at hinner ⊢
        rw [if_neg (fun hc => hc hstrip)] at hinner
        rw [if_pos h80]
        have hv' : v' = v := congrArg (fun p => p.2.1) hinner
        have hs : (size1 + add) % u64 = s := congrArg (fun p => p.2.2) hinner
        rw [hv', hs]

/-! ### Properties of the LEB128 loops -/

/-- The signed loop accumulates exactly like the unsigned loop: the unsigned
loop's output is the projection of the signed loop's output. -/
theorem uleb_fuel_eq_sleb_fuel (mobj : plcrash_async_mobject) (location : Nat) :
    ∀ fuel result shift offset,
      uleb_fuel mobj location fuel result shift offset =
        ⟨(sleb_fuel mobj location fuel result shift offset).err,
         (sleb_fuel mobj location fuel result shift offset).result,
         (sleb_fuel mobj location fuel result shift offset).offset⟩ := by
  intro fuel
  induction fuel with
  | zero =>
    intro result shift offset
    rw [uleb_fuel, sleb_fuel]
    cases pl_fetch_byte mobj location offset with
    | none => rfl
    | some byte =>
      simp only
      split
      · rfl
      · split
        · rfl
        · rfl
  | succ fuel ih =>
    intro result shift offset
    rw [uleb_fuel, sleb_fuel]
    cases pl_fetch_byte mobj location offset with
    | none => rfl
    | some byte =>
      simp only
      split
      · rfl
      · split
        · rfl
        · exact ih _ _ _

theorem uleb_loop_eq_sleb_loop (mobj : plcrash_async_mobject)
    (location result shift offset : Nat) :
    uleb_loop mobj location result shift offset =
      ⟨(sleb_loop mobj location result shift offset).err,
       (sleb_loop mobj location result shift offset).result,
       (sleb_loop mobj location result shift offset).offset⟩ := by
  rw [uleb_loop_eq_fuel mobj location 10 result shift offset (by omega),
    sleb_loop_eq_fuel mobj location 10 result shift offset (by omega)]
  exact uleb_fuel_eq_sleb_fuel mobj location 10 result shift offset

/-- When enough continuation bytes are available to push the shift to 64
bits, the loop fails with ENOTSUP. -/
theorem uleb_fuel_enotsup (mobj : plcrash_async_mobject) (location : Nat) :
    ∀ k fuel result shift offset, 64 ≤ shift + 7 * fuel →
      (∀ i, i < k → ∃ b, pl_fetch_byte mobj location (offset + i) = some b ∧
        b &&& 0x80 ≠ 0) →
      64 ≤ shift + 7 * k → shift < 64 →
      (uleb_fuel mobj location fuel result shift offset).err = .ENOTSUP := by
  intro k
  induction k with
  | zero =>
    intro fuel result shift offset hfuel hbytes hk hs
    omega
  | succ k ih =>
    intro fuel result shift offset hfuel hbytes hk hs
    obtain ⟨b0, hb0, hc0⟩ := hbytes 0 (by omega)
    rw [Nat.add_zero] at hb0
    rw [uleb_fuel, hb0]
    simp only
    rw [if_neg hc0]
    by_cases h64 : 64 ≤ shift + 7
    · rw [if_pos h64]
    · rw [if_neg h64]
      cases fuel with
      | zero => omega
      | succ fuel =>
        simp only
        refine ih fuel _ (shift + 7) (offset + 1) (by omega) ?_ (by omega) (by omega)
        intro i hi
        obtain ⟨b, hb, hc⟩ := hbytes (i + 1) (by omega)
        refine ⟨b, ?_, hc⟩
        rw [show offset + 1 + i = offset + (i + 1) from by omega]
        exact hb

/-- When the mapping runs out before a terminator is reached and before the
shift can hit 64 bits, the loop fails with EINVAL. -/
theorem uleb_fuel_einval (mobj : plcrash_async_mobject) (location : Nat) :
    ∀ k fuel result shift offset, 64 ≤ shift + 7 * fuel →
      shift + 7 * k < 64 →
      (∀ i, i < k → ∃ b, pl_fetch_byte mobj location (offset + i) = some b ∧
        b &&& 0x80 ≠ 0) →
      pl_fetch_byte mobj location (offset + k) = none →
      (uleb_fuel mobj location fuel result shift offset).err = .EINVAL := by
  intro k
  induction k with
  | zero =>
    intro fuel result shift offset hfuel hk hbytes hnone
    rw [Nat.add_zero] at hnone
    rw [uleb_fuel, hnone]
  | succ k ih =>
    intro fuel result shift offset hfuel hk hbytes hnone
    obtain ⟨b0, hb0, hc0⟩ := hbytes 0 (by omega)
    rw [Nat.add_zero] at hb0
    rw [uleb_fuel, hb0]
    simp only
    rw [if_neg hc0, if_neg (by omega : ¬64 ≤ shift + 7)]
    cases fuel with
    | zero => omega
    | succ fuel =>
      simp only
      refine ih fuel _ (shift + 7) (offset + 1) (by omega) (by omega) ?_ ?_
      · intro i hi
        obtain ⟨b, hb, hc⟩ := hbytes (i + 1) (by omega)
        refine ⟨b, ?_, hc⟩
        rw [show offset + 1 + i = offset + (i + 1) from by omega]
        exact hb
      · rw [show offset + 1 + k = offset + (k + 1) from by omega]
        exact hnone

/-- A successful loop run consumes at least one byte, and each consumed byte
beyond the first required the shift to stay below 64: with entry shift
`shift ≤ 63`, at most `(70 - shift) / 7` bytes are consumed. -/
theorem uleb_fuel_success_bound (mobj : plcrash_async_mobject) (location : Nat) :
    ∀ fuel result shift offset res off, shift ≤ 63 →
      uleb_fuel mobj location fuel result shift offset = ⟨.ESUCCESS, res, off⟩ →
      offset < off ∧ 7 * (off - offset) + shift ≤ 70 := by
  intro fuel
  induction fuel with
  | zero =>
    intro result shift offset res off hs h
    rw [uleb_fuel] at h
    revert h
    cases pl_fetch_byte mobj location offset with
    | none =>
      intro h
      injection h with h1 h2 h3
      exact plcrash_error.noConfusion h1
    | some byte =>
      simp only
      split
      · intro h
        have hoff : offset + 1 = off := congrArg LebLoopResult.offset h
        omega
      · split
        · intro h
          injection h with h1 h2 h3
          exact plcrash_error.noConfusion h1
        · intro h
          injection h with h1 h2 h3
          exact plcrash_error.noConfusion h1
  | succ fuel ih =>
    intro result shift offset res off hs h
    rw [uleb_fuel] at h
    revert h
    cases pl_fetch_byte mobj location offset with
    | none =>
      intro h
      injection h with h1 h2 h3
      exact plcrash_error.noConfusion h1
    | some byte =>
      simp only
      split
      · intro h
        have hoff : offset + 1 = off := congrArg LebLoopResult.offset h
        omega
      · split
        · intro h
          injection h with h1 h2 h3
          exact plcrash_error.noConfusion h1
        · intro h
          rename_i hterm h64
          have := ih _ (shift + 7) (offset + 1) res off (by omega) h
          omega

/-- Characterization of a successful unsigned loop run: at least one byte is
consumed; the last consumed byte is the terminator (high bit clear); all
earlier consumed bytes have the high bit set; and the result is the 7-bit
accumulation of the consumed bytes. -/
theorem uleb_fuel_success_spec (mobj : plcrash_async_mobject) (location : Nat) :
    ∀ fuel result shift offset res off,
      uleb_fuel mobj location fuel result shift offset = ⟨.ESUCCESS, res, off⟩ →
      offset < off ∧
      (∃ b, pl_fetch_byte mobj location (off - 1) = some b ∧ b &&& 0x80 = 0) ∧
      (∀ i, offset ≤ i → i + 1 < off →
        ∃ b, pl_fetch_byte mobj location i = some b ∧ b &&& 0x80 ≠ 0) ∧
      res = uleb_acc result shift
        (fetched_bytes mobj location offset (off - offset)) := by
  intro fuel
  induction fuel with
  | zero =>
    intro result shift offset res off h
    rw [uleb_fuel] at h
    revert h
    cases hfet : pl_fetch_byte mobj location offset with
    | none =>
      intro h
      injection h with h1 h2 h3
      exact plcrash_error.noConfusion h1
    | some byte =>
      simp only
      split
      · intro h
        rename_i hterm
        have hoff : offset + 1 = off := congrArg LebLoopResult.offset h
        have hres : (result ||| ((byte &&& 0x7f) <<< shift)) % u64 = res :=
          congrArg LebLoopResult.result h
        refine ⟨by omega, ⟨byte, by rw [show off - 1 = offset from by omega]; exact ⟨hfet, hterm⟩⟩,
          fun i hi1 hi2 => absurd rfl (by omega : i ≠ i), ?_⟩
        rw [show off - offset = 1 from by omega]
        simp only [fetched_bytes, uleb_acc, hfet, Option.getD_some]
        exact hres.symm
      · split
        · intro h
          injection h with h1 h2 h3
          exact plcrash_error.noConfusion h1
        · intro h
          injection h with h1 h2 h3
          exact plcrash_error.noConfusion h1
  | succ fuel ih =>
    intro result shift offset res off h
    rw [uleb_fuel] at h
    revert h
    cases hfet : pl_fetch_byte mobj location offset with
    | none =>
      intro h
      injection h with h1 h2 h3
      exact plcrash_error.noConfusion h1
    | some byte =>
      simp only
      split
      · intro h
        rename_i hterm
        have hoff : offset + 1 = off := congrArg LebLoopResult.offset h
        have hres : (result ||| ((byte &&& 0x7f) <<< shift)) % u64 = res :=
          congrArg LebLoopResult.result h
        refine ⟨by omega, ⟨byte, by rw [show off - 1 = offset from by omega]; exact ⟨hfet, hterm⟩⟩,
          fun i hi1 hi2 => absurd rfl (by omega : i ≠ i), ?_⟩
        rw [show off - offset = 1 from by omega]
        simp only [fetched_bytes, uleb_acc, hfet, Option.getD_some]
        exact hres.symm
      · split
        · intro h
          injection h with h1 h2 h3
          exact plcrash_error.noConfusion h1
        · intro h
          rename_i hterm h64
          obtain ⟨h1, ⟨b, hb, hbt⟩, h3, h4⟩ := ih _ (shift + 7) (offset + 1) res off h
          refine ⟨by omega, ⟨b, hb, hbt⟩, ?_, ?_⟩
          · intro i hi1 hi2
            rcases Nat.eq_or_lt_of_le hi1 with hie | hil
            · exact ⟨byte, by rw [hie] at hfet; exact hfet, hterm⟩
            · exact h3 i (by omega) hi2
          · rw [h4]
            have hn : off - offset = (off - (offset + 1)) + 1 := by omega
            rw [hn]
            simp only [fetched_bytes, uleb_acc, hfet, Option.getD_some]

/-! ### Bridging the wrappers and their loops -/

/-- The decoder's error and result cell always equal the loop's; only the
size cell depends on the success test. -/
theorem read_uleb128_err_result (mobj : plcrash_async_mobject)
    (location size0 : Nat) :
    (plcrash_async_dwarf_read_uleb128 mobj location size0).1 =
      (uleb_loop mobj location 0 0 0).err ∧
    (plcrash_async_dwarf_read_uleb128 mobj location size0).2.1 =
      (uleb_loop mobj location 0 0 0).result := by
  unfold plcrash_async_dwarf_read_uleb128
  rcases hl : uleb_loop mobj location 0 0 0 with ⟨err, rr, oo⟩
  cases err
  case ESUCCESS => rw [if_pos rfl]; exact ⟨rfl, rfl⟩
  all_goals rw [if_neg (fun hc => plcrash_error.noConfusion hc)]; exact ⟨rfl, rfl⟩

theorem read_sleb128_err (mobj : plcrash_async_mobject) (location size0 : Nat) :
    (plcrash_async_dwarf_read_sleb128 mobj location size0).1 =
      (sleb_loop mobj location 0 0 0).err := by
  unfold plcrash_async_dwarf_read_sleb128
  rcases hl : sleb_loop mobj location 0 0 0 with ⟨err, rr, oo, lb, sh⟩
  cases err
  case ESUCCESS => rw [if_pos rfl]
  all_goals rw [if_neg (fun hc => plcrash_error.noConfusion hc)]

/-- On a failing run the unsigned decoder leaves the caller's size cell with
its initial contents. -/
theorem read_uleb128_failure_size (mobj : plcrash_async_mobject)
    (location size0 : Nat) :
    (plcrash_async_dwarf_read_uleb128 mobj location size0).1 ≠ .ESUCCESS →
    (plcrash_async_dwarf_read_uleb128 mobj location size0).2.2 = size0 := by
  unfold plcrash_async_dwarf_read_uleb128
  rcases hl : uleb_loop mobj location 0 0 0 with ⟨err, rr, oo⟩
  cases err
  case ESUCCESS => rw [if_pos rfl]; intro h; exact absurd rfl h
  all_goals rw [if_neg (fun hc => plcrash_error.noConfusion hc)]; intro h; rfl

/-- On a failing run the signed decoder leaves the caller's size cell with
its initial contents. -/
theorem read_sleb128_failure_size (mobj : plcrash_async_mobject)
    (location size0 : Nat) :
    (plcrash_async_dwarf_read_sleb128 mobj location size0).1 ≠ .ESUCCESS →
    (plcrash_async_dwarf_read_sleb128 mobj location size0).2.2 = size0 := by
  unfold plcrash_async_dwarf_read_sleb128
  rcases hl : sleb_loop mobj location 0 0 0 with ⟨err, rr, oo, lb, sh⟩
  cases err
  case ESUCCESS => rw [if_pos rfl]; intro h; exact absurd rfl h
  all_goals rw [if_neg (fun hc => plcrash_error.noConfusion hc)]; intro h; rfl

/-- A successful decode comes from a successful loop run with the same
result and size. -/
theorem read_uleb128_success_loop (mobj : plcrash_async_mobject)
    (location size0 r n : Nat)
    (h : plcrash_async_dwarf_read_uleb128 mobj location size0 = (.ESUCCESS, r, n)) :
    uleb_loop mobj location 0 0 0 = ⟨.ESUCCESS, r, n⟩ := by
  unfold plcrash_async_dwarf_read_uleb128 at h
  rcases hl : uleb_loop mobj location 0 0 0 with ⟨err, rr, oo⟩
  rw [hl] at h
  cases err
  case ESUCCESS =>
    rw [if_pos rfl] at h
    have h2 : rr = r := congrArg (fun p => p.2.1) h
    have h3 : oo = n := congrArg (fun p => p.2.2) h
    rw [h2, h3]
  all_goals
    rw [if_neg (fun hc => plcrash_error.noConfusion hc)] at h
    exact absurd (congrArg Prod.fst h) (fun hc => plcrash_error.noConfusion hc)

/-- A successful signed loop run determines the signed decoder's output,
applying sign extension exactly when the final shift is below 64 and the
terminating byte's 0x40 bit is set. -/
theorem read_sleb128_of_loop_success (mobj : plcrash_async_mobject)
    (location size0 res off lb sh : Nat)
    (h : sleb_loop mobj location 0 0 0 = ⟨.ESUCCESS, res, off, lb, sh⟩) :
    plcrash_async_dwarf_read_sleb128 mobj location size0 =
      (.ESUCCESS,
       if sh < 64 ∧ lb &&& 0x40 ≠ 0 then res ||| (u64 - (1 <<< sh)) else res,
       off) := by
  unfold plcrash_async_dwarf_read_sleb128
  rw [h]
  rw [if_pos rfl]

/-! ### Claim theorems -/

/-- C9: for every mapping, byte order, location, state, and initial cell
contents, decoding with the omit encoding returns NotFound — an outcome
distinct from every other result kind — leaves both caller cells untouched,
and produces the same output for every mapping (no read is performed). -/
theorem gnueh_ptr_omit_spec :
    (∀ (mobj : plcrash_async_mobject) (byteorder : plcrash_async_byteorder)
        (location : Nat) (state : plcrash_async_dwarf_gnueh_ptr_state)
        (result0 size0 junk : Nat),
      plcrash_async_dwarf_read_gnueh_ptr mobj byteorder location DW_EH_PE_omit
        state result0 size0 junk = (.ENOTFOUND, result0, size0)) ∧
    plcrash_error.ENOTFOUND ≠ .ESUCCESS ∧
    plcrash_error.ENOTFOUND ≠ .ENOTSUP ∧
    plcrash_error.ENOTFOUND ≠ .EINVAL := by
  refine ⟨?_, by decide, by decide, by decide⟩
  intro mobj byteorder location state result0 size0 junk
  rw [plcrash_async_dwarf_read_gnueh_ptr, if_pos rfl]

/-- C8: for every pcrel, textrel, datarel, or funcrel encoding whose
corresponding base address in the state is the unavailable sentinel, the
decoder returns ENOTSUP (distinct from the EINVAL malformed-input failure)
with the result cell untouched and the size cell 0, and the output is the
same for every mapping — no read beyond inspecting the state. -/
theorem gnueh_ptr_missing_base_spec :
    (∀ (e : Nat) (mobj : plcrash_async_mobject)
        (byteorder : plcrash_async_byteorder) (location : Nat)
        (state : plcrash_async_dwarf_gnueh_ptr_state) (result0 size0 junk : Nat),
      e &&& 0x70 = DW_EH_PE_pcrel →
      state.pc_rel_base = PL_VM_ADDRESS_INVALID →
      plcrash_async_dwarf_read_gnueh_ptr mobj byteorder location e state
        result0 size0 junk = (.ENOTSUP, result0, 0)) ∧
    (∀ (e : Nat) (mobj : plcrash_async_mobject)
        (byteorder : plcrash_async_byteorder) (location : Nat)
        (state : plcrash_async_dwarf_gnueh_ptr_state) (result0 size0 junk : Nat),
      e &&& 0x70 = DW_EH_PE_textrel →
      state.text_base = PL_VM_ADDRESS_INVALID →
      plcrash_async_dwarf_read_gnueh_ptr mobj byteorder location e state
        result0 size0 junk = (.ENOTSUP, result0, 0)) ∧
    (∀ (e : Nat) (mobj : plcrash_async_mobject)
        (byteorder : plcrash_async_byteorder) (location : Nat)
        (state : plcrash_async_dwarf_gnueh_ptr_state) (result0 size0 junk : Nat),
      e &&& 0x70 = DW_EH_PE_datarel →
      state.data_base = PL_VM_ADDRESS_INVALID →
      plcrash_async_dwarf_read_gnueh_ptr mobj byteorder location e state
        result0 size0 junk = (.ENOTSUP, result0, 0)) ∧
    (∀ (e : Nat) (mobj : plcrash_async_mobject)
        (byteorder : plcrash_async_byteorder) (location : Nat)
        (state : plcrash_async_dwarf_gnueh_ptr_state) (result0 size0 junk : Nat),
      e &&& 0x70 = DW_EH_PE_funcrel →
      state.func_base = PL_VM_ADDRESS_INVALID →
      plcrash_async_dwarf_read_gnueh_ptr mobj byteorder location e state
        result0 size0 junk = (.ENOTSUP, result0, 0)) ∧
    plcrash_error.ENOTSUP ≠ .EINVAL := by
  refine ⟨?_, ?_, ?_, ?_, by decide⟩
  · intro e mobj byteorder location state result0 size0 junk h70 hinv
    have hne : e ≠ DW_EH_PE_omit := by
      intro he; rw [he] at h70; exact absurd h70 (by decide)
    rw [plcrash_async_dwarf_read_gnueh_ptr, if_neg hne]
    have hb : gnueh_ptr_base e state location = .error .ENOTSUP := by
      unfold gnueh_ptr_base
      rw [h70, if_pos rfl, if_pos hinv]
    rw [hb]
  · intro e mobj byteorder location state result0 size0 junk h70 hinv
    have hne : e ≠ DW_EH_PE_omit := by
      intro he; rw [he] at h70; exact absurd h70 (by decide)
    rw [plcrash_async_dwarf_read_gnueh_ptr, if_neg hne]
    have hb : gnueh_ptr_base e state location = .error .ENOTSUP := by
      unfold gnueh_ptr_base
      rw [h70, if_neg (by decide), if_neg (by decide), if_pos rfl, if_pos hinv]
    rw [hb]
  · intro e mobj byteorder location state result0 size0 junk h70 hinv
    have hne : e ≠ DW_EH_PE_omit := by
      intro he; rw [he] at h70; exact absurd h70 (by decide)
    rw [plcrash_async_dwarf_read_gnueh_ptr, if_neg hne]
    have hb : gnueh_ptr_base e state location = .error .ENOTSUP := by
      unfold gnueh_ptr_base
      rw [h70, if_neg (by decide), if_neg (by decide), if_neg (by decide),
        if_pos rfl, if_pos hinv]
    rw [hb]
  · intro e mobj byteorder location state result0 size0 junk h70 hinv
    have hne : e ≠ DW_EH_PE_omit := by
      intro he; rw [he] at h70; exact absurd h70 (by decide)
    rw [plcrash_async_dwarf_read_gnueh_ptr, if_neg hne]
    have hb : gnueh_ptr_base e state location = .error .ENOTSUP := by
      unfold gnueh_ptr_base
      rw [h70, if_neg (by decide), if_neg (by decide), if_neg (by decide),
        if_neg (by decide), if_pos rfl, if_pos hinv]
    rw [hb]

/-- Concrete run of the pcrel case of `gnueh_ptr_missing_base_spec`. -/
theorem gnueh_ptr_missing_base_spec_witness :
    ((0x10 : Nat) &&& 0x70 = DW_EH_PE_pcrel ∧
     (plcrash_async_dwarf_gnueh_ptr_state_init 8 0 0 PL_VM_ADDRESS_INVALID
        0 0 0).pc_rel_base = PL_VM_ADDRESS_INVALID) ∧
    plcrash_async_dwarf_read_gnueh_ptr ⟨0, []⟩ byteorder_le 0 0x10
      (plcrash_async_dwarf_gnueh_ptr_state_init 8 0 0 PL_VM_ADDRESS_INVALID
        0 0 0) 5 6 7 = (.ENOTSUP, 5, 0) :=
  ⟨⟨by decide, by decide⟩,
   gnueh_ptr_missing_base_spec.1 0x10 ⟨0, []⟩ byteorder_le 0
     (plcrash_async_dwarf_gnueh_ptr_state_init 8 0 0 PL_VM_ADDRESS_INVALID
       0 0 0) 5 6 7 (by decide) (by decide)⟩

/-- C10: on every failing return both LEB128 decoders leave the caller's
size cell unwritten (it keeps its initial contents; it is assigned only on
the success path), while the result cell may already hold a partially
accumulated value: on the single continuation byte 0xff the unsigned decoder
fails with EINVAL, the size cell keeps its initial 7, and the result cell
holds the partial accumulation 0x7f. -/
theorem leb128_failure_outputs_spec :
    (∀ (mobj : plcrash_async_mobject) (location size0 : Nat),
      (plcrash_async_dwarf_read_uleb128 mobj location size0).1 ≠ .ESUCCESS →
      (plcrash_async_dwarf_read_uleb128 mobj location size0).2.2 = size0) ∧
    (∀ (mobj : plcrash_async_mobject) (location size0 : Nat),
      (plcrash_async_dwarf_read_sleb128 mobj location size0).1 ≠ .ESUCCESS →
      (plcrash_async_dwarf_read_sleb128 mobj location size0).2.2 = size0) ∧
    plcrash_async_dwarf_read_uleb128 ⟨0x100, [0xff]⟩ 0x100 7 =
      (.EINVAL, 0x7f, 7) := by
  refine ⟨read_uleb128_failure_size, read_sleb128_failure_size, ?_⟩
  rw [read_uleb128_eq_exec]
  decide

/-- Concrete run of the first part of `leb128_failure_outputs_spec`. -/
theorem leb128_failure_outputs_spec_witness :
    (plcrash_async_dwarf_read_uleb128 ⟨0x200, []⟩ 0x200 42).1 ≠ .ESUCCESS ∧
    (plcrash_async_dwarf_read_uleb128 ⟨0x200, []⟩ 0x200 42).2.2 = 42 :=
  ⟨by rw [read_uleb128_eq_exec]; decide,
   leb128_failure_outputs_spec.1 ⟨0x200, []⟩ 0x200 42
     (by rw [read_uleb128_eq_exec]; decide)⟩

/-- C5: whenever the first 10 bytes at the location all carry the
continuation bit — so the encoded magnitude would need more than 64 bits —
the ULEB128 decoder fails with ENOTSUP rather than silently truncating, and
every successful unsigned decode consumes at most 10 bytes. -/
theorem uleb128_overflow_spec :
    (∀ (mobj : plcrash_async_mobject) (location size0 : Nat),
      (∀ i, i < 10 → ∃ b, pl_fetch_byte mobj location i = some b ∧
        b &&& 0x80 ≠ 0) →
      (plcrash_async_dwarf_read_uleb128 mobj location size0).1 = .ENOTSUP) ∧
    (∀ (mobj : plcrash_async_mobject) (location size0 r n : Nat),
      plcrash_async_dwarf_read_uleb128 mobj location size0 = (.ESUCCESS, r, n) →
      n ≤ 10) := by
  constructor
  · intro mobj location size0 hbytes
    rw [(read_uleb128_err_result mobj location size0).1,
      uleb_loop_eq_fuel mobj location 10 0 0 0 (by omega)]
    refine uleb_fuel_enotsup mobj location 10 10 0 0 0 (by omega) ?_ (by omega)
      (by omega)
    intro i hi
    simpa using hbytes i hi
  · intro mobj location size0 r n h
    have hl := read_uleb128_success_loop mobj location size0 r n h
    rw [uleb_loop_eq_fuel mobj location 10 0 0 0 (by omega)] at hl
    have := uleb_fuel_success_bound mobj location 10 0 0 0 r n (by omega) hl
    omega

/-- Concrete run of `uleb128_overflow_spec` on ten continuation bytes. -/
theorem uleb128_overflow_spec_witness :
    (∀ i, i < 10 →
      ∃ b, pl_fetch_byte ⟨0x300, List.replicate 10 0x80⟩ 0x300 i = some b ∧
        b &&& 0x80 ≠ 0) ∧
    (plcrash_async_dwarf_read_uleb128 ⟨0x300, List.replicate 10 0x80⟩ 0x300 3).1 =
      .ENOTSUP := by
  have hb : ∀ i, i < 10 →
      ∃ b, pl_fetch_byte ⟨0x300, List.replicate 10 0x80⟩ 0x300 i = some b ∧
        b &&& 0x80 ≠ 0 := by
    intro i hi
    refine ⟨0x80, ?_, by decide⟩
    interval_cases i <;> decide
  exact ⟨hb, uleb128_overflow_spec.1 ⟨0x300, List.replicate 10 0x80⟩ 0x300 3 hb⟩

/-- C6 counterexample: a mapping of ten continuation bytes whose range ends
before any terminator; both decoders fail, but with ENOTSUP (the 64-bit
limit fires first), not EINVAL as the claim states. -/
theorem leb128_truncation_counterexample :
    (plcrash_async_dwarf_read_uleb128 ⟨0x100, List.replicate 10 0x80⟩ 0x100 3).1 =
      .ENOTSUP ∧
    (plcrash_async_dwarf_read_sleb128 ⟨0x100, List.replicate 10 0x80⟩ 0x100 3).1 =
      .ENOTSUP ∧
    plcrash_error.ENOTSUP ≠ .EINVAL := by
  refine ⟨?_, ?_, by decide⟩
  · rw [read_uleb128_eq_exec]; decide
  · rw [read_sleb128_eq_exec]; decide

/-- C6 (amended): for every mapping that ends, within the first nine bytes
from the location, before a byte with the continuation bit clear is reached,
both LEB128 decoders fail with EINVAL (the bounds-checked single-byte fetch
reports the range unavailable before the 64-bit limit can fire). -/
theorem leb128_truncation_invalid_amended :
    ∀ (mobj : plcrash_async_mobject) (location size0 k : Nat), k ≤ 9 →
      (∀ i, i < k → ∃ b, pl_fetch_byte mobj location i = some b ∧
        b &&& 0x80 ≠ 0) →
      pl_fetch_byte mobj location k = none →
      (plcrash_async_dwarf_read_uleb128 mobj location size0).1 = .EINVAL ∧
      (plcrash_async_dwarf_read_sleb128 mobj location size0).1 = .EINVAL := by
  intro mobj location size0 k hk hbytes hnone
  have h1 : (uleb_loop mobj location 0 0 0).err = .EINVAL := by
    rw [uleb_loop_eq_fuel mobj location 10 0 0 0 (by omega)]
    refine uleb_fuel_einval mobj location k 10 0 0 0 (by omega) (by omega) ?_ ?_
    · intro i hi
      simpa using hbytes i hi
    · simpa using hnone
  have h2 : (uleb_loop mobj location 0 0 0).err =
      (sleb_loop mobj location 0 0 0).err :=
    congrArg LebLoopResult.err (uleb_loop_eq_sleb_loop mobj location 0 0 0)
  constructor
  · rw [(read_uleb128_err_result mobj location size0).1, h1]
  · rw [read_sleb128_err mobj location size0, ← h2, h1]

/-- Concrete run of `leb128_truncation_invalid_amended`: two continuation
bytes and then the mapping ends. -/
theorem leb128_truncation_invalid_amended_witness :
    ((2 : Nat) ≤ 9 ∧
     pl_fetch_byte ⟨0x100, [0x80, 0x80]⟩ 0x100 2 = none) ∧
    (plcrash_async_dwarf_read_uleb128 ⟨0x100, [0x80, 0x80]⟩ 0x100 11).1 =
      .EINVAL ∧
    (plcrash_async_dwarf_read_sleb128 ⟨0x100, [0x80, 0x80]⟩ 0x100 11).1 =
      .EINVAL := by
  have hb : ∀ i, i < 2 →
      ∃ b, pl_fetch_byte ⟨0x100, [0x80, 0x80]⟩ 0x100 i = some b ∧
        b &&& 0x80 ≠ 0 := by
    intro i hi
    refine ⟨0x80, ?_, by decide⟩
    interval_cases i <;> decide
  exact ⟨⟨by omega, by decide⟩,
    leb128_truncation_invalid_amended ⟨0x100, [0x80, 0x80]⟩ 0x100 11 2
      (by omega) hb (by decide)⟩

/-- C7: the ULEB128 decoder ORs each fetched byte's low 7 bits, shifted by
the running shift, into the accumulator, and the reported size counts the
terminating byte: on success the size is at least 1, the byte at
location + size - 1 is the terminator (high bit clear), all earlier bytes
have the high bit set, and the result is the 7-bit accumulation of the
consumed bytes.  Consequently 0x00 decodes to 0 with size 1 and
0xE5 0x8E 0x26 decodes to 624485 with size 3. -/
theorem uleb128_accumulation_spec :
    plcrash_async_dwarf_read_uleb128 ⟨0x100, [0x00]⟩ 0x100 7 =
      (.ESUCCESS, 0, 1) ∧
    plcrash_async_dwarf_read_uleb128 ⟨0x100, [0xE5, 0x8E, 0x26]⟩ 0x100 7 =
      (.ESUCCESS, 624485, 3) ∧
    (∀ (mobj : plcrash_async_mobject) (location size0 r n : Nat),
      plcrash_async_dwarf_read_uleb128 mobj location size0 = (.ESUCCESS, r, n) →
      1 ≤ n ∧
      (∃ b, pl_fetch_byte mobj location (n - 1) = some b ∧ b &&& 0x80 = 0) ∧
      (∀ i, i + 1 < n → ∃ b, pl_fetch_byte mobj location i = some b ∧
        b &&& 0x80 ≠ 0) ∧
      r = uleb_acc 0 0 (fetched_bytes mobj location 0 n)) := by
  refine ⟨by rw [read_uleb128_eq_exec]; decide,
    by rw [read_uleb128_eq_exec]; decide, ?_⟩
  intro mobj location size0 r n h
  have hl := read_uleb128_success_loop mobj location size0 r n h
  rw [uleb_loop_eq_fuel mobj location 10 0 0 0 (by omega)] at hl
  obtain ⟨h1, h2, h3, h4⟩ := uleb_fuel_success_spec mobj location 10 0 0 0 r n hl
  refine ⟨by omega, h2, ?_, ?_⟩
  · intro i hi
    exact h3 i (by omega) hi
  · rw [h4, Nat.sub_zero]

/-- Concrete run of the accumulation part of `uleb128_accumulation_spec`. -/
theorem uleb128_accumulation_spec_witness :
    plcrash_async_dwarf_read_uleb128 ⟨0x100, [0xE5, 0x8E, 0x26]⟩ 0x100 7 =
      (.ESUCCESS, 624485, 3) ∧
    (1 ≤ 3 ∧
     (∃ b, pl_fetch_byte ⟨0x100, [0xE5, 0x8E, 0x26]⟩ 0x100 (3 - 1) = some b ∧
       b &&& 0x80 = 0) ∧
     (∀ i, i + 1 < 3 →
       ∃ b, pl_fetch_byte ⟨0x100, [0xE5, 0x8E, 0x26]⟩ 0x100 i = some b ∧
         b &&& 0x80 ≠ 0) ∧
     624485 = uleb_acc 0 0 (fetched_bytes ⟨0x100, [0xE5, 0x8E, 0x26]⟩ 0x100 0 3)) := by
  have hs : plcrash_async_dwarf_read_uleb128 ⟨0x100, [0xE5, 0x8E, 0x26]⟩ 0x100 7 =
      (.ESUCCESS, 624485, 3) := by
    rw [read_uleb128_eq_exec]; decide
  exact ⟨hs, uleb128_accumulation_spec.2.2 ⟨0x100, [0xE5, 0x8E, 0x26]⟩ 0x100 7
    624485 3 hs⟩

/-- C4: the SLEB128 decoder accumulates exactly like the unsigned decoder
(its loop's error, result, and offset are the unsigned loop's), and on
success the wrapper sign-extends the accumulator by OR-ing in the 64-bit
two's complement pattern of -(1 << shift) iff the final shift is below 64
and the terminating byte's 0x40 bit is set.  Consequently 0x7f decodes to
-1 with size 1, and 0x9b 0xf1 0x59 decodes to -624485 with size 3. -/
theorem sleb128_sign_extension_spec :
    (∀ (mobj : plcrash_async_mobject) (location result shift offset : Nat),
      uleb_loop mobj location result shift offset =
        ⟨(sleb_loop mobj location result shift offset).err,
         (sleb_loop mobj location result shift offset).result,
         (sleb_loop mobj location result shift offset).offset⟩) ∧
    (∀ (mobj : plcrash_async_mobject) (location size0 res off lb sh : Nat),
      sleb_loop mobj location 0 0 0 = ⟨.ESUCCESS, res, off, lb, sh⟩ →
      plcrash_async_dwarf_read_sleb128 mobj location size0 =
        (.ESUCCESS,
         if sh < 64 ∧ lb &&& 0x40 ≠ 0 then res ||| (u64 - (1 <<< sh)) else res,
         off)) ∧
    (plcrash_async_dwarf_read_sleb128 ⟨0x100, [0x7f]⟩ 0x100 9 =
       (.ESUCCESS, u64 - 1, 1) ∧ toInt64 (u64 - 1) = -1) ∧
    (plcrash_async_dwarf_read_sleb128 ⟨0x100, [0x9b, 0xf1, 0x59]⟩ 0x100 9 =
       (.ESUCCESS, u64 - 624485, 3) ∧ toInt64 (u64 - 624485) = -624485) := by
  refine ⟨uleb_loop_eq_sleb_loop, read_sleb128_of_loop_success,
    ⟨?_, by decide⟩, ⟨?_, by decide⟩⟩
  · rw [read_sleb128_eq_exec]; decide
  · rw [read_sleb128_eq_exec]; decide

/-- Concrete run of the sign-extension part of `sleb128_sign_extension_spec`
on the single byte 0x7f. -/
theorem sleb128_sign_extension_spec_witness :
    sleb_loop ⟨0x100, [0x7f]⟩ 0x100 0 0 0 = ⟨.ESUCCESS, 0x7f, 1, 0x7f, 7⟩ ∧
    plcrash_async_dwarf_read_sleb128 ⟨0x100, [0x7f]⟩ 0x100 9 =
      (.ESUCCESS,
       if 7 < 64 ∧ (0x7f : Nat) &&& 0x40 ≠ 0 then
         (0x7f : Nat) ||| (u64 - (1 <<< 7))
       else 0x7f,
       1) := by
  have hl : sleb_loop ⟨0x100, [0x7f]⟩ 0x100 0 0 0 =
      ⟨.ESUCCESS, 0x7f, 1, 0x7f, 7⟩ := by
    rw [sleb_loop_eq_fuel ⟨0x100, [0x7f]⟩ 0x100 10 0 0 0 (by omega)]
    decide
  exact ⟨hl,
    sleb128_sign_extension_spec.2.1 ⟨0x100, [0x7f]⟩ 0x100 9 0x7f 1 0x7f 7 hl⟩

/-- C3: for every encoding with the indirection bit set whose non-indirect
part decodes successfully to value v with size s, the decoder performs
exactly one further decode — a plain DW_EH_PE_absptr at v with the same
state — returns that inner decode's error and result, and reports size s:
only the bytes consumed at the original location, the inner size cell being
discarded.  In the concrete absptr|indirect instance with address size 8,
location 0x100 holds the address 0x108, 0x108 holds 0x42, and the decode
returns 0x42 with size 8. -/
theorem gnueh_ptr_indirect_spec :
    (∀ (e : Nat) (mobj : plcrash_async_mobject)
        (byteorder : plcrash_async_byteorder) (location : Nat)
        (state : plcrash_async_dwarf_gnueh_ptr_state)
        (result0 size0 junk v s : Nat),
      e &&& DW_EH_PE_indirect ≠ 0 →
      plcrash_async_dwarf_read_gnueh_ptr mobj byteorder location (e &&& 0x7f)
        state result0 size0 junk = (.ESUCCESS, v, s) →
      plcrash_async_dwarf_read_gnueh_ptr mobj byteorder location e state
          result0 size0 junk =
        ((plcrash_async_dwarf_read_gnueh_ptr mobj byteorder v DW_EH_PE_absptr
            state v junk junk).1,
         (plcrash_async_dwarf_read_gnueh_ptr mobj byteorder v DW_EH_PE_absptr
            state v junk junk).2.1,
         s)) ∧
    plcrash_async_dwarf_read_gnueh_ptr
      ⟨0x100, [0x08, 0x01, 0, 0, 0, 0, 0, 0, 0x42, 0, 0, 0, 0, 0, 0, 0]⟩
      byteorder_le 0x100 (DW_EH_PE_absptr ||| DW_EH_PE_indirect)
      ⟨8, PL_VM_ADDRESS_INVALID, PL_VM_ADDRESS_INVALID, PL_VM_ADDRESS_INVALID,
       PL_VM_ADDRESS_INVALID, PL_VM_ADDRESS_INVALID, PL_VM_ADDRESS_INVALID⟩
      0 0 0 = (.ESUCCESS, 0x42, 8) := by
  refine ⟨gnueh_ptr_indirect_decomposition, ?_⟩
  rw [read_gnueh_ptr_eq_exec]
  decide

/-- Concrete run of the decomposition part of `gnueh_ptr_indirect_spec`. -/
theorem gnueh_ptr_indirect_spec_witness :
    ((0x80 : Nat) &&& DW_EH_PE_indirect ≠ 0 ∧
     plcrash_async_dwarf_read_gnueh_ptr
       ⟨0x100, [0x08, 0x01, 0, 0, 0, 0, 0, 0, 0x42, 0, 0, 0, 0, 0, 0, 0]⟩
       byteorder_le 0x100 ((0x80 : Nat) &&& 0x7f)
       ⟨8, PL_VM_ADDRESS_INVALID, PL_VM_ADDRESS_INVALID, PL_VM_ADDRESS_INVALID,
        PL_VM_ADDRESS_INVALID, PL_VM_ADDRESS_INVALID, PL_VM_ADDRESS_INVALID⟩
       0 0 0 = (.ESUCCESS, 0x108, 8)) ∧
    plcrash_async_dwarf_read_gnueh_ptr
      ⟨0x100, [0x08, 0x01, 0, 0, 0, 0, 0, 0, 0x42, 0, 0, 0, 0, 0, 0, 0]⟩
      byteorder_le 0x100 0x80
      ⟨8, PL_VM_ADDRESS_INVALID, PL_VM_ADDRESS_INVALID, PL_VM_ADDRESS_INVALID,
       PL_VM_ADDRESS_INVALID, PL_VM_ADDRESS_INVALID, PL_VM_ADDRESS_INVALID⟩
      0 0 0 =
      ((plcrash_async_dwarf_read_gnueh_ptr
          ⟨0x100, [0x08, 0x01, 0, 0, 0, 0, 0, 0, 0x42, 0, 0, 0, 0, 0, 0, 0]⟩
          byteorder_le 0x108 DW_EH_PE_absptr
          ⟨8, PL_VM_ADDRESS_INVALID, PL_VM_ADDRESS_INVALID, PL_VM_ADDRESS_INVALID,
           PL_VM_ADDRESS_INVALID, PL_VM_ADDRESS_INVALID, PL_VM_ADDRESS_INVALID⟩
          0x108 0 0).1,
       (plcrash_async_dwarf_read_gnueh_ptr
          ⟨0x100, [0x08, 0x01, 0, 0, 0, 0, 0, 0, 0x42, 0, 0, 0, 0, 0, 0, 0]⟩
          byteorder_le 0x108 DW_EH_PE_absptr
          ⟨8, PL_VM_ADDRESS_INVALID, PL_VM_ADDRESS_INVALID, PL_VM_ADDRESS_INVALID,
           PL_VM_ADDRESS_INVALID, PL_VM_ADDRESS_INVALID, PL_VM_ADDRESS_INVALID⟩
          0x108 0 0).2.1,
       8) := by
  have h2 : plcrash_async_dwarf_read_gnueh_ptr
      ⟨0x100, [0x08, 0x01, 0, 0, 0, 0, 0, 0, 0x42, 0, 0, 0, 0, 0, 0, 0]⟩
      byteorder_le 0x100 ((0x80 : Nat) &&& 0x7f)
      ⟨8, PL_VM_ADDRESS_INVALID, PL_VM_ADDRESS_INVALID, PL_VM_ADDRESS_INVALID,
       PL_VM_ADDRESS_INVALID, PL_VM_ADDRESS_INVALID, PL_VM_ADDRESS_INVALID⟩
      0 0 0 = (.ESUCCESS, 0x108, 8) := by
    rw [read_gnueh_ptr_eq_exec]
    decide
  exact ⟨⟨by decide, h2⟩,
    gnueh_ptr_indirect_spec.1 0x80 _ byteorder_le 0x100 _ 0 0 0 0x108 8
      (by decide) h2⟩

/-- C1 (code bug): on the uleb128 encoding over a mapping holding the single
continuation byte 0x80, the ULEB128 sub-decode fails with EINVAL, yet
plcrash_async_dwarf_read_gnueh_ptr — which assigns the sub-decode's return
value to err but never tests it — returns ESUCCESS, with the result taken
from the partial accumulator (0) and the size taken from the uninitialized
local size variable (the junk value, here 0xDEAD). -/
theorem uleb128_error_ignored_code_bug :
    (plcrash_async_dwarf_read_uleb128 ⟨0x100, [0x80]⟩ 0x100 0xDEAD).1 =
      .EINVAL ∧
    plcrash_async_dwarf_read_gnueh_ptr ⟨0x100, [0x80]⟩ byteorder_le 0x100
      DW_EH_PE_uleb128
      ⟨8, PL_VM_ADDRESS_INVALID, PL_VM_ADDRESS_INVALID, PL_VM_ADDRESS_INVALID,
       PL_VM_ADDRESS_INVALID, PL_VM_ADDRESS_INVALID, PL_VM_ADDRESS_INVALID⟩
      0xAAAA 0xBBBB 0xDEAD = (.ESUCCESS, 0, 0xDEAD) := by
  constructor
  · rw [read_uleb128_eq_exec]; decide
  · rw [read_gnueh_ptr_eq_exec]; decide

/-- C2 (code bug): with frame_section_base = frame_section_vm_addr = 0x1000,
address_size = 4, and location = 0x1001, the aligned decode masks with the
ones' complement of address_size, which clears only bit 2: the computed
aligned address is 0x1000, not the conventional (vm_addr + 3) & ~3 = 0x1004,
so the decoder moves the location backward to 0x1000, reads the 4 bytes
stored there (0x11111111, not the 0x22222222 stored at 0x1004), and after
unsigned wraparound of the padding reports size 3. -/
theorem aligned_mask_code_bug :
    ((0x1001 + (4 - 1) : Nat) &&& ((4 : Nat) ^^^ (u64 - 1)) = 0x1000) ∧
    ((0x1001 + (4 - 1) : Nat) &&& ((3 : Nat) ^^^ (u64 - 1)) = 0x1004) ∧
    plcrash_async_dwarf_read_gnueh_ptr
      ⟨0x1000, [0x11, 0x11, 0x11, 0x11, 0x22, 0x22, 0x22, 0x22]⟩ byteorder_le
      0x1001 DW_EH_PE_aligned
      ⟨4, 0x1000, 0x1000, PL_VM_ADDRESS_INVALID, PL_VM_ADDRESS_INVALID,
       PL_VM_ADDRESS_INVALID, PL_VM_ADDRESS_INVALID⟩
      0 0 0 = (.ESUCCESS, 0x11111111, 3) := by
  refine ⟨by decide, by decide, ?_⟩
  rw [read_gnueh_ptr_eq_exec]
  decide

end PLCrashDwarf
